import Mathlib

/-!
Verification of the notebook-repair utility (`fix_notebook.py`) and the
Streamlit session controller (`research_app.py`) of the
AI-Research-Assistant-LangChain repository, via a shallow embedding of the
Python code into Lean.

JSON documents are modelled by the inductive type `Json`; Python dicts are
association lists in insertion order (Python 3.7+ dict semantics: updating an
existing key keeps its position, a fresh key is appended at the end).
Python exceptions are modelled by `Except`.
-/

/-- JSON values as produced by Python's `json.loads`.  Python distinguishes
`int` and `float` JSON numbers; the only float literal appearing in this
repository is `0.0`, so floats are carried as `jfloat` with an integral
value. Objects are association lists in insertion order. -/
inductive Json where
  | null
  | bool (b : Bool)
  | jnum (n : Int)
  | jfloat (n : Int)
  | str (s : String)
  | arr (xs : List Json)
  | obj (kvs : List (String × Json))

/-- Lookup of a key in a Python dict (first occurrence; parsed Python dicts
never hold duplicate keys). -/
def lookupKey : List (String × Json) → String → Option Json
  | [], _ => none
  | (k, v) :: rest, key => if k = key then some v else lookupKey rest key

/-- `d[key] = v` on a Python dict: replace the value in place when the key is
present, append the new pair at the end otherwise. -/
def setPairs : List (String × Json) → String → Json → List (String × Json)
  | [], key, v => [(key, v)]
  | (k, w) :: rest, key, v =>
      if k = key then (k, v) :: rest else (k, w) :: setPairs rest key v

/-- `j[key]` read on an object; `none` elsewhere (used where Python has
already established `j` is a dict). -/
def Json.getKey : Json → String → Option Json
  | .obj kvs, k => lookupKey kvs k
  | _, _ => none

/-- `key in j` for a Python dict. -/
def Json.hasKey (j : Json) (k : String) : Bool :=
  (j.getKey k).isSome

/-- `j[key] = v` on an object; identity elsewhere. -/
def Json.setKey : Json → String → Json → Json
  | .obj kvs, k, v => .obj (setPairs kvs k v)
  | j, _, _ => j

/-- Is the value a JSON object (Python dict)? -/
def Json.isObj : Json → Bool
  | .obj _ => true
  | _ => false

/-- The pattern `if key not in d: d[key] = v` used throughout
`fix_notebook_encoding`. -/
def ensureKey (j : Json) (k : String) (v : Json) : Json :=
  if j.hasKey k then j else j.setKey k v

/-- The line-boundary characters of Python's `str.splitlines`
(`\r\n` is additionally treated as a single boundary). -/
def isLineBreak (c : Char) : Bool :=
  ['\n', '\r', '\x0b', '\x0c', '\x1c', '\x1d', '\x1e', '\x85', '\u2028', '\u2029'].contains c

/-- Python's `s.splitlines(keepends=True)` on the character list of `s`:
split at line boundaries, keeping each boundary attached to its line. -/
def splitLinesKeep : List Char → List (List Char)
  | [] => []
  | c :: rest =>
    if c = '\r' then
      match rest with
      | [] => [['\r']]
      | d :: rest2 =>
        if d = '\n' then ['\r', '\n'] :: splitLinesKeep rest2
        else ['\r'] :: splitLinesKeep (d :: rest2)
    else if isLineBreak c then [c] :: splitLinesKeep rest
    else
      match splitLinesKeep rest with
      | [] => [[c]]
      | l :: ls => (c :: l) :: ls

/-- `cell['source'].splitlines(keepends=True)` as a list of JSON strings
(fix_notebook.py line 53). -/
def pyLines (s : String) : List Json :=
  (splitLinesKeep s.toList).map (fun l => Json.str (String.mk l))

/-- Substring test, Python's `sub in s` on strings. -/
def strContainsSub (s sub : String) : Bool :=
  (List.range (s.toList.length + 1)).any
    (fun i => sub.toList.isPrefixOf (s.toList.drop i))

/-- Python exceptions raised (or failure returns taken) by the scripts. -/
inductive PyFail where
  | missingCells
  | typeError
  | keyError
  | attrError
deriving DecidableEq

/-- Does a JSON value equal the Python string `'cell_type'` (Python `==`)? -/
def isStrCellType : Json → Bool
  | .str s => s = "cell_type"
  | _ => false

/-- The `source` normalisation of `fix_notebook_encoding` (lines 49-53):
a missing `source` becomes `[]`, a string `source` becomes its
kept-ends line list, anything else is left alone. -/
def fixSource (c : Json) : Json :=
  if c.hasKey "source" = false then c.setKey "source" (.arr [])
  else
    match c.getKey "source" with
    | some (.str s) => c.setKey "source" (.arr (pyLines s))
    | _ => c

/-- The per-cell body of the loop in `fix_notebook_encoding` (lines 43-63).
A cell without a `cell_type` key is skipped (`continue`).  For non-dict
cells Python's `'cell_type' not in cell` either skips the cell or raises a
`TypeError` once the cell is subscripted. -/
def fixCell (c : Json) : Except PyFail Json :=
  match c with
  | .obj _ =>
    if c.hasKey "cell_type" = false then .ok c
    else
      let c2 := ensureKey (fixSource c) "metadata" (.obj [])
      match c2.getKey "cell_type" with
      | none => .error .keyError
      | some (.str t) =>
        if t = "code" then
          .ok (ensureKey (ensureKey c2 "outputs" (.arr [])) "execution_count" .null)
        else .ok c2
      | some _ => .ok c2
  | .str s => if strContainsSub s "cell_type" then .error .typeError else .ok c
  | .arr xs => if xs.any isStrCellType then .error .typeError else .ok c
  | .null => .error .typeError
  | .bool _ => .error .typeError
  | .jnum _ => .error .typeError
  | .jfloat _ => .error .typeError

/-- The cell loop of `fix_notebook_encoding`: stop at the first exception. -/
def fixCells : List Json → Except PyFail (List Json)
  | [] => .ok []
  | c :: rest =>
    match fixCell c with
    | .error e => .error e
    | .ok c2 =>
      match fixCells rest with
      | .error e => .error e
      | .ok rest2 => .ok (c2 :: rest2)

/-- Top-level defaults of `fix_notebook_encoding` (lines 32-40): ensure
`metadata`, `nbformat`, `nbformat_minor` in that order. -/
def addTopDefaults (nb : Json) : Json :=
  ensureKey (ensureKey (ensureKey nb "metadata" (.obj [])) "nbformat" (.jnum 4))
    "nbformat_minor" (.jnum 4)

/-- Does a JSON value equal the Python string `'cells'` (Python `==`)? -/
def isStrCells : Json → Bool
  | .str s => s = "cells"
  | _ => false

/-- The document transformation of `fix_notebook_encoding` (lines 23-64):
everything between a successful `json.loads` and the final `json.dump`.
`.error .missingCells` is the explicit `return False` of line 28; the other
errors are exceptions caught by the `except` clauses of lines 72-80.
Non-dict documents and non-list `cells` values follow Python's `in`,
iteration and subscription semantics: iterating a string yields its
characters (each a 1-character string that cannot contain `'cell_type'`),
iterating a dict yields its keys, and subscripting or iterating anything
else raises `TypeError`. -/
def fixJson (nb : Json) : Except PyFail Json :=
  match nb with
  | .obj _ =>
    if nb.hasKey "cells" = false then .error .missingCells
    else
      let nb3 := addTopDefaults nb
      match nb3.getKey "cells" with
      | some (.arr cs) =>
        match fixCells cs with
        | .error e => .error e
        | .ok cs2 => .ok (nb3.setKey "cells" (.arr cs2))
      | some (.str _) => .ok nb3
      | some (.obj kvs) =>
        if kvs.any (fun kv => strContainsSub kv.1 "cell_type") then .error .typeError
        else .ok nb3
      | some _ => .error .typeError
      | none => .error .typeError
  | .arr xs =>
      if xs.any isStrCells then .error .typeError else .error .missingCells
  | .str s =>
      if strContainsSub s "cells" then .error .typeError else .error .missingCells
  | _ => .error .typeError

/-- One lowercase hex digit. -/
def hexDigit (n : Nat) : Char :=
  if n < 10 then Char.ofNat (48 + n) else Char.ofNat (87 + n)

/-- JSON string escaping of one character as done by `json.dump` with
`ensure_ascii=False`: only the two-character escapes and control
characters are escaped, everything else is written as-is. -/
def escChar (c : Char) : String :=
  if c = '"' then "\\\""
  else if c = '\\' then "\\\\"
  else if c = '\n' then "\\n"
  else if c = '\r' then "\\r"
  else if c = '\t' then "\\t"
  else if c = '\x08' then "\\b"
  else if c = '\x0c' then "\\f"
  else if c.toNat < 32 then
    "\\u00" ++ String.mk [hexDigit (c.toNat / 16), hexDigit (c.toNat % 16)]
  else String.mk [c]

/-- A JSON string literal as written by `json.dump(..., ensure_ascii=False)`. -/
def quoteStr (s : String) : String :=
  "\"" ++ String.join (s.toList.map escChar) ++ "\""

/-- `n` spaces. -/
def spaces (n : Nat) : String :=
  String.mk (List.replicate n ' ')

mutual
/-- `json.dump(v, f, indent=2, ensure_ascii=False)` (fix_notebook.py line 67):
the serialised text of a value whose opening token sits at indent `ind`. -/
def dumpJson : Nat → Json → String
  | _, .null => "null"
  | _, .bool true => "true"
  | _, .bool false => "false"
  | _, .jnum n => toString n
  | _, .jfloat n => toString n ++ ".0"
  | _, .str s => quoteStr s
  | _, .arr [] => "[]"
  | ind, .arr (x :: xs) =>
      "[\n" ++ dumpItems (ind + 2) x xs ++ "\n" ++ spaces ind ++ "]"
  | _, .obj [] => "\x7b\x7d"
  | ind, .obj (p :: ps) =>
      "\x7b\n" ++ dumpPairs (ind + 2) p ps ++ "\n" ++ spaces ind ++ "\x7d"
termination_by _ j => sizeOf j

/-- Comma-and-newline separated array items at indent `ind`. -/
def dumpItems : Nat → Json → List Json → String
  | ind, x, [] => spaces ind ++ dumpJson ind x
  | ind, x, y :: ys => spaces ind ++ dumpJson ind x ++ ",\n" ++ dumpItems ind y ys
termination_by _ x xs => sizeOf x + sizeOf xs

/-- Comma-and-newline separated object entries at indent `ind`. -/
def dumpPairs : Nat → String × Json → List (String × Json) → String
  | ind, (k, v), [] => spaces ind ++ quoteStr k ++ ": " ++ dumpJson ind v
  | ind, (k, v), q :: qs =>
      spaces ind ++ quoteStr k ++ ": " ++ dumpJson ind v ++ ",\n" ++ dumpPairs ind q qs
termination_by _ p ps => sizeOf p + sizeOf ps
end

/-- What reading and JSON-parsing the notebook file yields, abstracting the
byte-level file: a `UnicodeDecodeError` on `f.read()`, a `JSONDecodeError`
on `json.loads`, or a parsed document. -/
inductive ReadResult where
  | unicodeFail
  | notJson
  | parsedDoc (nb : Json)

/-- The four reported outcomes of `fix_notebook_encoding`: success, the
explicit invalid-structure `return False` (line 28), and the three
`except` clauses of lines 72-80. -/
inductive FixOutcome where
  | fixedOk
  | failedMissingCells
  | failedJsonDecode
  | failedUnicodeDecode
  | failedOther
deriving DecidableEq

/-- `True` exactly when `fix_notebook_encoding` returned `True`. -/
def FixOutcome.toBool : FixOutcome → Bool
  | .fixedOk => true
  | _ => false

/-- `fix_notebook_encoding` at file level: its reported outcome and the file
content afterwards (the file is rewritten only on the success path,
line 66-67; every failure path returns before the `open(..., 'w')`). -/
def runFixScript (r : ReadResult) (orig : String) : FixOutcome × String :=
  match r with
  | .unicodeFail => (.failedUnicodeDecode, orig)
  | .notJson => (.failedJsonDecode, orig)
  | .parsedDoc nb =>
    match fixJson nb with
    | .error .missingCells => (.failedMissingCells, orig)
    | .error _ => (.failedOther, orig)
    | .ok out => (.fixedOk, dumpJson 0 out)

/-- The exit code of `main()` (fix_notebook.py lines 143-178): 1 when the
notebook file is missing, the first validation fails, the fix fails, or the
re-validation fails; 0 otherwise.  The result of `create_backup` is not
consulted. -/
def mainExitCode (fileThere backupOk v1 : Bool) (fix : FixOutcome) (v2 : Bool) : Nat :=
  if fileThere = false then 1
  else
    let _ := backupOk
    if v1 = false then 1
    else if fix.toBool then (if v2 then 0 else 1)
    else 1

/-- The on-disk notebook file as seen by `validate_notebook`: existence,
size in bytes, and the outcome of `json.load` on its text. -/
structure NotebookFile where
  present : Bool
  size : Nat
  parsed : Except Unit Json

/-- Python `key in j` (membership test) for the types a JSON document can
be: key lookup on dicts, elementwise `==` on lists, substring test on
strings, `TypeError` otherwise. -/
def pyIn (key : String) (j : Json) : Except PyFail Bool :=
  match j with
  | .obj _ => .ok (j.hasKey key)
  | .arr xs => .ok (xs.any (fun x => match x with | .str s => s = key | _ => false))
  | .str s => .ok (strContainsSub s key)
  | _ => .error .typeError

/-- Python `j[key]` with a string key: dict lookup (`KeyError` when absent),
`TypeError` on any other type. -/
def pyGetItem (j : Json) (key : String) : Except PyFail Json :=
  match j with
  | .obj kvs =>
    match lookupKey kvs key with
    | some v => .ok v
    | none => .error .keyError
  | _ => .error .typeError

/-- Python `len(j)`: `TypeError` on numbers, booleans and `None`. -/
def pyLen (j : Json) : Except PyFail Nat :=
  match j with
  | .arr xs => .ok xs.length
  | .str s => .ok s.length
  | .obj kvs => .ok kvs.length
  | _ => .error .typeError

/-- Python `for x in j`: list elements, the characters of a string (each a
1-character string), the keys of a dict; `TypeError` otherwise. -/
def pyIter (j : Json) : Except PyFail (List Json) :=
  match j with
  | .arr xs => .ok xs
  | .str s => .ok (s.toList.map (fun ch => Json.str (String.mk [ch])))
  | .obj kvs => .ok (kvs.map (fun kv => Json.str kv.1))
  | _ => .error .typeError

/-- Python `j.get(key, dflt)`: only dicts have `.get`
(`AttributeError` otherwise). -/
def pyDictGet (j : Json) (key : String) (dflt : Json) : Except PyFail Json :=
  match j with
  | .obj kvs => .ok ((lookupKey kvs key).getD dflt)
  | _ => .error .attrError

/-- Is the value usable as a Python dict key (hashable)?  Lists and dicts
are not. -/
def pyHashable : Json → Bool
  | .arr _ => false
  | .obj _ => false
  | _ => true

/-- Python `==` on the hashable JSON values (`True == 1`, `False == 0`,
`1 == 1.0`).  Lists and dicts are rejected as dict keys before ever being
compared, so the structural fallback for them is never exercised. -/
def pyEq : Json → Json → Bool
  | .null, .null => true
  | .bool a, .bool b => a = b
  | .bool a, .jnum n => (if a then (1 : Int) else 0) = n
  | .bool a, .jfloat n => (if a then (1 : Int) else 0) = n
  | .jnum n, .bool a => n = (if a then (1 : Int) else 0)
  | .jfloat n, .bool a => n = (if a then (1 : Int) else 0)
  | .jnum a, .jnum b => a = b
  | .jnum a, .jfloat b => a = b
  | .jfloat a, .jnum b => a = b
  | .jfloat a, .jfloat b => a = b
  | .str a, .str b => a = b
  | _, _ => false

/-- `cell_types[t] = cell_types.get(t, 0) + 1` on the insertion-ordered
counting dict (fix_notebook.py line 117). -/
def bumpCount : List (Json × Nat) → Json → List (Json × Nat)
  | [], t => [(t, 1)]
  | (k, n) :: rest, t =>
    if pyEq k t then (k, n + 1) :: rest else (k, n) :: bumpCount rest t

/-- The counting loop of `validate_notebook` (lines 114-117): take each
cell's `cell_type` (default `'unknown'`), require it hashable, and bump its
count. -/
def countCells : List Json → List (Json × Nat) → Except PyFail (List (Json × Nat))
  | [], acc => .ok acc
  | c :: rest, acc =>
    match pyDictGet c "cell_type" (.str "unknown") with
    | .error e => .error e
    | .ok t =>
      if pyHashable t = false then .error .typeError
      else countCells rest (bumpCount acc t)

/-- `validate_notebook` (fix_notebook.py lines 82-127): `False` when the file
is missing or empty, when `json.load` fails, when the document has no
`cells` key, or when any exception escapes the cell-type counting
(`TypeError`/`KeyError`/`AttributeError` from subscription, `len`,
iteration, `.get` or an unhashable key); otherwise `True` together with
the printed per-type counts. -/
def validateNotebook (f : NotebookFile) : Bool × List (Json × Nat) :=
  if f.present = false then (false, [])
  else if f.size = 0 then (false, [])
  else
    match f.parsed with
    | .error _ => (false, [])
    | .ok doc =>
      match pyIn "cells" doc with
      | .error _ => (false, [])
      | .ok false => (false, [])
      | .ok true =>
        match pyGetItem doc "cells" with
        | .error _ => (false, [])
        | .ok cells =>
          match pyLen cells with
          | .error _ => (false, [])
          | .ok _ =>
            match pyIter cells with
            | .error _ => (false, [])
            | .ok elems =>
              match countCells elems [] with
              | .error _ => (false, [])
              | .ok counts => (true, counts)

/-- Lookup in the printed counting dict (Python `==` on keys, 0 default). -/
def countLookup : List (Json × Nat) → Json → Nat
  | [], _ => 0
  | (k, n) :: rest, t => if pyEq k t then n else countLookup rest t

/-- The import-fallback stub `ResearchAssistant` defined in
`research_app.py` (lines 43-55): it stores the API key and its `research`
ignores `include_analysis`, returning a fixed dictionary.  Note the
returned dictionary has no `timestamp` key. -/
structure ResearchAssistant where
  api_key : String

/-- `ResearchAssistant.research(query, include_analysis=True)` of the stub
(research_app.py lines 48-55). -/
def ResearchAssistant.research (_a : ResearchAssistant) (query : String)
    (_include_analysis : Bool) : Json :=
  .obj
    [("query", .str query),
     ("findings", .str "Research functionality not available - please run the notebook first"),
     ("sources", .arr []),
     ("cost", .jfloat 0),
     ("tokens_used", .jnum 0)]

/-- One entry of `st.session_state.research_history`
(research_app.py lines 160-165). -/
structure HistoryEntry where
  topic : String
  timestamp : String
  result : Json
  cost : Json

/-- Assistant initialisation (research_app.py lines 84-89): the only
external call wrapped in `try`/`except` — on failure an error message is
shown via `st.error` and the handler returns. -/
inductive InitOutcome (A : Type) where
  | ready (a : A)
  | errorShown (msg : String)

/-- `st.session_state.assistant = ResearchAssistant(...)` inside
`try`/`except` (research_app.py lines 84-89). -/
def initSessionAssistant {A : Type} (ctor : Except String A) : InitOutcome A :=
  match ctor with
  | .ok a => .ready a
  | .error e => .errorShown ("Failed to initialize assistant: " ++ e)

/-- The Research-tab button handler (research_app.py lines 154-165): call
`assistant.research` (an external call NOT wrapped in `try`/`except`;
an exception propagates out of the handler), then append
`{topic, timestamp, result, cost: result.get('cost', 0)}` to the history.
A non-dict result would raise `AttributeError` at `.get`. -/
def researchButton (h : List HistoryEntry) (query ts : String)
    (call : Except String Json) : Except String (List HistoryEntry) :=
  match call with
  | .error e => .error e
  | .ok r =>
    match r with
    | .obj kvs =>
      .ok (h ++ [⟨query, ts, r, (lookupKey kvs "cost").getD (.jnum 0)⟩])
    | _ => .error "AttributeError"

/-- The Summarize-tab button handler (research_app.py lines 217-226): build
the templated prompt, call `research` (not wrapped in `try`/`except`) and
display the result.  The history list is not touched. -/
def summarizeButton (h : List HistoryEntry) (topic style : String)
    (research : String → Except String Json) :
    Except String (List HistoryEntry × Json) :=
  match research ("Create a " ++ style.toLower ++ " summary on the topic: " ++ topic) with
  | .error e => .error e
  | .ok r => .ok (h, r)

/-- The Recommendations-tab button handler (research_app.py lines 233-242):
templated prompt, unguarded `research` call, history untouched. -/
def recommendButton (h : List HistoryEntry) (topic : String)
    (research : String → Except String Json) :
    Except String (List HistoryEntry × Json) :=
  match research ("Recommend high-quality academic sources, books, and resources for: " ++ topic) with
  | .error e => .error e
  | .ok r => .ok (h, r)

/-- The Trends-tab button handler (research_app.py lines 249-259):
templated prompt, unguarded `research` call, history untouched. -/
def trendsButton (h : List HistoryEntry) (topic : String)
    (research : String → Except String Json) :
    Except String (List HistoryEntry × Json) :=
  match research ("Analyze current research trends, recent developments, and future directions in: " ++ topic) with
  | .error e => .error e
  | .ok r => .ok (h, r)

/-- The add-from-URL handler (research_app.py lines 283-290): unguarded
`doc_processor.add_document_from_url` call; success is judged by a
substring test on the returned message. -/
def addFromUrlButton (url : String)
    (addDocumentFromUrl : String → Except String String) : Except String Bool :=
  match addDocumentFromUrl url with
  | .error e => .error e
  | .ok msg => .ok (strContainsSub msg "Successfully")

/-- The sidebar shows `st.session_state.research_history[-5:]`
(research_app.py line 123): the most recent five entries. -/
def displayedHistory (h : List HistoryEntry) : List HistoryEntry :=
  h.drop (h.length - 5)

theorem lookupKey_setPairs_self (l : List (String × Json)) (k : String) (v : Json) :
    lookupKey (setPairs l k v) k = some v := by
  induction l with
  | nil => simp [setPairs, lookupKey]
  | cons p rest ih =>
    obtain ⟨k1, v1⟩ := p
    by_cases h : k1 = k
    · simp [setPairs, lookupKey, h]
    · simp [setPairs, lookupKey, h, ih]

theorem lookupKey_setPairs_other (l : List (String × Json)) (k k2 : String) (v : Json)
    (h : k2 ≠ k) : lookupKey (setPairs l k v) k2 = lookupKey l k2 := by
  induction l with
  | nil => simp [setPairs, lookupKey, Ne.symm h]
  | cons p rest ih =>
    obtain ⟨k1, v1⟩ := p
    by_cases h1 : k1 = k
    · subst h1
      simp [setPairs, lookupKey, Ne.symm h]
    · simp [setPairs, lookupKey, h1, ih]

theorem setPairs_of_lookup_eq (l : List (String × Json)) (k : String) (v : Json)
    (h : lookupKey l k = some v) : setPairs l k v = l := by
  induction l with
  | nil => simp [lookupKey] at h
  | cons p rest ih =>
    obtain ⟨k1, v1⟩ := p
    by_cases h1 : k1 = k
    · subst h1
      simp [lookupKey] at h
      simp [setPairs, h]
    · simp [lookupKey, h1] at h
      simp [setPairs, h1, ih h]

theorem getKey_setKey_self (j : Json) (k : String) (v : Json) (h : j.isObj = true) :
    (j.setKey k v).getKey k = some v := by
  cases j <;> simp [Json.isObj] at h ⊢
  exact lookupKey_setPairs_self _ _ _

theorem getKey_setKey_other (j : Json) (k k2 : String) (v : Json) (h : k2 ≠ k) :
    (j.setKey k v).getKey k2 = j.getKey k2 := by
  cases j <;> simp [Json.setKey, Json.getKey]
  exact lookupKey_setPairs_other _ _ _ _ h

theorem isObj_setKey (j : Json) (k : String) (v : Json) :
    (j.setKey k v).isObj = j.isObj := by
  cases j <;> simp [Json.setKey, Json.isObj]

theorem hasKey_setKey_self (j : Json) (k : String) (v : Json) (h : j.isObj = true) :
    (j.setKey k v).hasKey k = true := by
  simp [Json.hasKey, getKey_setKey_self j k v h]

theorem hasKey_setKey_other (j : Json) (k k2 : String) (v : Json) (h : k2 ≠ k) :
    (j.setKey k v).hasKey k2 = j.hasKey k2 := by
  simp [Json.hasKey, getKey_setKey_other j k k2 v h]

theorem setKey_of_getKey_eq (j : Json) (k : String) (v : Json)
    (h : j.getKey k = some v) : j.setKey k v = j := by
  cases j <;> simp [Json.setKey, Json.getKey] at h ⊢
  exact setPairs_of_lookup_eq _ _ _ h

theorem isObj_ensureKey (j : Json) (k : String) (v : Json) :
    (ensureKey j k v).isObj = j.isObj := by
  unfold ensureKey
  split
  · rfl
  · exact isObj_setKey j k v

theorem ensureKey_of_has (j : Json) (k : String) (v : Json) (h : j.hasKey k = true) :
    ensureKey j k v = j := by
  simp [ensureKey, h]

theorem getKey_ensureKey_other (j : Json) (k k2 : String) (v : Json) (h : k2 ≠ k) :
    (ensureKey j k v).getKey k2 = j.getKey k2 := by
  unfold ensureKey
  split
  · rfl
  · exact getKey_setKey_other j k k2 v h

theorem hasKey_ensureKey_other (j : Json) (k k2 : String) (v : Json) (h : k2 ≠ k) :
    (ensureKey j k v).hasKey k2 = j.hasKey k2 := by
  simp [Json.hasKey, getKey_ensureKey_other j k k2 v h]

theorem hasKey_ensureKey_self (j : Json) (k : String) (v : Json) (h : j.isObj = true) :
    (ensureKey j k v).hasKey k = true := by
  unfold ensureKey
  split
  · assumption
  · exact hasKey_setKey_self j k v h

theorem getKey_ensureKey_of_not (j : Json) (k : String) (v : Json)
    (h : j.hasKey k = false) (ho : j.isObj = true) :
    (ensureKey j k v).getKey k = some v := by
  simp [ensureKey, h]
  exact getKey_setKey_self j k v ho

theorem getKey_of_hasKey (j : Json) (k : String) (h : j.hasKey k = true) :
    ∃ v, j.getKey k = some v := by
  unfold Json.hasKey at h
  cases hg : j.getKey k with
  | none => rw [hg] at h; simp at h
  | some v => exact ⟨v, rfl⟩

theorem isObj_fixSource (c : Json) : (fixSource c).isObj = c.isObj := by
  unfold fixSource
  split
  · exact isObj_setKey c "source" (.arr [])
  · split
    · exact isObj_setKey c "source" _
    · rfl

theorem hasKey_fixSource_source (c : Json) (ho : c.isObj = true) :
    (fixSource c).hasKey "source" = true := by
  unfold fixSource
  split
  · exact hasKey_setKey_self c _ _ ho
  next h =>
    split
    · exact hasKey_setKey_self c _ _ ho
    · simpa using h

theorem getKey_fixSource_not_str (c : Json) (ho : c.isObj = true) (s : String) :
    (fixSource c).getKey "source" ≠ some (.str s) := by
  unfold fixSource
  split
  · rw [getKey_setKey_self c _ _ ho]
    simp
  · split
    · rw [getKey_setKey_self c _ _ ho]
      simp
    next h hm =>
      exact hm s

theorem getKey_fixSource_other (c : Json) (k : String) (h : k ≠ "source") :
    (fixSource c).getKey k = c.getKey k := by
  unfold fixSource
  split
  · exact getKey_setKey_other c _ k _ h
  · split
    · exact getKey_setKey_other c _ k _ h
    · rfl

theorem hasKey_fixSource_other (c : Json) (k : String) (h : k ≠ "source") :
    (fixSource c).hasKey k = c.hasKey k := by
  simp [Json.hasKey, getKey_fixSource_other c k h]

theorem getKey_cmid_cell_type (c : Json) :
    (ensureKey (fixSource c) "metadata" (.obj [])).getKey "cell_type" =
      c.getKey "cell_type" := by
  rw [getKey_ensureKey_other _ _ _ _ (by decide)]
  exact getKey_fixSource_other c _ (by decide)

theorem fixCell_ok_post (c c2 : Json) (h : fixCell c = .ok c2) :
    c2.hasKey "cell_type" = true →
      c2.hasKey "source" = true ∧ c2.hasKey "metadata" = true ∧
      (∀ s, c2.getKey "source" ≠ some (.str s)) ∧
      (c2.getKey "cell_type" = some (.str "code") →
        c2.hasKey "outputs" = true ∧ c2.hasKey "execution_count" = true) := by
  intro hct
  cases c with
  | null => simp [fixCell] at h
  | bool b => simp [fixCell] at h
  | jnum n => simp [fixCell] at h
  | jfloat n => simp [fixCell] at h
  | str s =>
    simp only [fixCell] at h
    split at h
    · simp at h
    · simp only [Except.ok.injEq] at h
      subst h
      simp [Json.hasKey, Json.getKey] at hct
  | arr xs =>
    simp only [fixCell] at h
    split at h
    · simp at h
    · simp only [Except.ok.injEq] at h
      subst h
      simp [Json.hasKey, Json.getKey] at hct
  | obj kvs =>
    have ho : (Json.obj kvs).isObj = true := rfl
    simp only [fixCell] at h
    split at h
    next hskip =>
      simp only [Except.ok.injEq] at h
      subst h
      rw [hct] at hskip
      simp at hskip
    next hck =>
      have homid : (ensureKey (fixSource (Json.obj kvs)) "metadata" (Json.obj [])).isObj = true := by
        rw [isObj_ensureKey, isObj_fixSource]
        exact ho
      have hsrc : (ensureKey (fixSource (Json.obj kvs)) "metadata" (Json.obj [])).hasKey "source" = true := by
        rw [hasKey_ensureKey_other _ _ _ _ (by decide)]
        exact hasKey_fixSource_source _ ho
      have hmeta : (ensureKey (fixSource (Json.obj kvs)) "metadata" (Json.obj [])).hasKey "metadata" = true := by
        apply hasKey_ensureKey_self
        rw [isObj_fixSource]
        exact ho
      have hnostr : ∀ s, (ensureKey (fixSource (Json.obj kvs)) "metadata" (Json.obj [])).getKey "source" ≠ some (.str s) := by
        intro s
        rw [getKey_ensureKey_other _ _ _ _ (by decide)]
        exact getKey_fixSource_not_str _ ho s
      split at h
      · exact absurd h (by simp)
      next t hmatch =>
        split at h
        next hcode =>
          subst hcode
          simp only [Except.ok.injEq] at h
          subst h
          refine ⟨?_, ?_, ?_, fun _ => ⟨?_, ?_⟩⟩
          · rw [hasKey_ensureKey_other _ _ _ _ (by decide),
              hasKey_ensureKey_other _ _ _ _ (by decide)]
            exact hsrc
          · rw [hasKey_ensureKey_other _ _ _ _ (by decide),
              hasKey_ensureKey_other _ _ _ _ (by decide)]
            exact hmeta
          · intro s
            rw [getKey_ensureKey_other _ _ _ _ (by decide),
              getKey_ensureKey_other _ _ _ _ (by decide)]
            exact hnostr s
          · rw [hasKey_ensureKey_other _ _ _ _ (by decide)]
            apply hasKey_ensureKey_self
            simp only [isObj_ensureKey, isObj_fixSource]
            rfl
          · apply hasKey_ensureKey_self
            simp only [isObj_ensureKey, isObj_fixSource]
            rfl
        next hncode =>
          simp only [Except.ok.injEq] at h
          subst h
          refine ⟨hsrc, hmeta, hnostr, fun hcode2 => ?_⟩
          rw [hmatch] at hcode2
          simp at hcode2
          exact absurd hcode2 hncode
      next =>
        simp only [Except.ok.injEq] at h
        subst h
        refine ⟨hsrc, hmeta, hnostr, fun hcode2 => ?_⟩
        rename_i v hnot heqv
        rw [heqv] at hcode2
        simp only [Option.some.injEq] at hcode2
        exact absurd hcode2 (hnot "code")

theorem fixSource_eq_self (j : Json) (h1 : j.hasKey "source" = true)
    (h2 : ∀ s, j.getKey "source" ≠ some (.str s)) : fixSource j = j := by
  unfold fixSource
  rw [h1]
  simp only [Bool.true_eq_false, if_false]

theorem fixCell_eq_ok_self (j : Json) (ho : j.isObj = true)
    (hct : j.hasKey "cell_type" = true)
    (hsrc : j.hasKey "source" = true)
    (hmeta : j.hasKey "metadata" = true)
    (hnostr : ∀ s, j.getKey "source" ≠ some (.str s))
    (hcode : j.getKey "cell_type" = some (.str "code") →
      j.hasKey "outputs" = true ∧ j.hasKey "execution_count" = true) :
    fixCell j = .ok j := by
  obtain ⟨kvs, rfl⟩ : ∃ kvs, j = Json.obj kvs := by
    cases j <;> simp [Json.isObj] at ho ⊢
  simp only [fixCell, hct, Bool.true_eq_false, if_false]
  rw [fixSource_eq_self _ hsrc hnostr, ensureKey_of_has _ _ _ hmeta]
  cases hg : (Json.obj kvs).getKey "cell_type" with
  | none => simp [Json.hasKey, hg] at hct
  | some v =>
    cases v with
    | str t =>
      by_cases hc : t = "code"
      · subst hc
        obtain ⟨hout, hexec⟩ := hcode hg
        rw [ensureKey_of_has _ _ _ hout, ensureKey_of_has _ _ _ hexec]
        simp
      · simp only [if_neg hc]
    | null => rfl
    | bool b => rfl
    | jnum n => rfl
    | jfloat n => rfl
    | arr xs => rfl
    | obj kvs2 => rfl

theorem fixCell_ok_cell_type (c c2 : Json) (h : fixCell c = .ok c2) :
    c2.getKey "cell_type" = c.getKey "cell_type" ∧ c2.isObj = c.isObj := by
  cases c with
  | null => simp [fixCell] at h
  | bool b => simp [fixCell] at h
  | jnum n => simp [fixCell] at h
  | jfloat n => simp [fixCell] at h
  | str s =>
    simp only [fixCell] at h
    split at h
    · simp at h
    · simp only [Except.ok.injEq] at h
      subst h
      exact ⟨rfl, rfl⟩
  | arr xs =>
    simp only [fixCell] at h
    split at h
    · simp at h
    · simp only [Except.ok.injEq] at h
      subst h
      exact ⟨rfl, rfl⟩
  | obj kvs =>
    simp only [fixCell] at h
    split at h
    · simp only [Except.ok.injEq] at h
      subst h
      exact ⟨rfl, rfl⟩
    next hck =>
      split at h
      · simp at h
      next t hmatch =>
        split at h
        · simp only [Except.ok.injEq] at h
          subst h
          constructor
          · rw [getKey_ensureKey_other _ _ _ _ (by decide),
              getKey_ensureKey_other _ _ _ _ (by decide)]
            exact getKey_cmid_cell_type _
          · rw [isObj_ensureKey, isObj_ensureKey, isObj_ensureKey, isObj_fixSource]
        · simp only [Except.ok.injEq] at h
          subst h
          exact ⟨getKey_cmid_cell_type _, by rw [isObj_ensureKey, isObj_fixSource]⟩
      next =>
        simp only [Except.ok.injEq] at h
        subst h
        exact ⟨getKey_cmid_cell_type _, by rw [isObj_ensureKey, isObj_fixSource]⟩

theorem fixCell_idem (c c2 : Json) (h : fixCell c = .ok c2) :
    fixCell c2 = .ok c2 := by
  cases c with
  | null => simp [fixCell] at h
  | bool b => simp [fixCell] at h
  | jnum n => simp [fixCell] at h
  | jfloat n => simp [fixCell] at h
  | str s =>
    simp only [fixCell] at h
    split at h
    · simp at h
    next hns =>
      simp only [Except.ok.injEq] at h
      subst h
      simp only [fixCell]
      rw [if_neg hns]
  | arr xs =>
    simp only [fixCell] at h
    split at h
    · simp at h
    next hns =>
      simp only [Except.ok.injEq] at h
      subst h
      simp only [fixCell]
      rw [if_neg hns]
  | obj kvs =>
    by_cases hck : (Json.obj kvs).hasKey "cell_type" = false
    · have : fixCell (Json.obj kvs) = .ok (Json.obj kvs) := by
        simp only [fixCell, hck, if_true]
      rw [this] at h
      simp only [Except.ok.injEq] at h
      subst h
      simp only [fixCell, hck, if_true]
    · have hct : (Json.obj kvs).hasKey "cell_type" = true := by
        revert hck
        cases (Json.obj kvs).hasKey "cell_type" <;> simp
      obtain ⟨hg2, hobj2⟩ := fixCell_ok_cell_type _ _ h
      have hct2 : c2.hasKey "cell_type" = true := by
        simp only [Json.hasKey, hg2]
        exact hct
      obtain ⟨hsrc, hmeta, hnostr, hcode⟩ := fixCell_ok_post _ _ h hct2
      exact fixCell_eq_ok_self c2 (by rw [hobj2]; rfl) hct2 hsrc hmeta hnostr hcode

theorem fixCells_idem (l l2 : List Json) (h : fixCells l = .ok l2) :
    fixCells l2 = .ok l2 := by
  induction l generalizing l2 with
  | nil =>
    simp only [fixCells, Except.ok.injEq] at h
    subst h
    rfl
  | cons c rest ih =>
    simp only [fixCells] at h
    split at h
    · simp at h
    next c2 hc2 =>
      split at h
      · simp at h
      next rest2 hrest2 =>
        simp only [Except.ok.injEq] at h
        subst h
        simp only [fixCells, fixCell_idem _ _ hc2, ih _ hrest2]

theorem fixCells_mem (l l2 : List Json) (h : fixCells l = .ok l2) :
    ∀ c ∈ l2, ∃ x, fixCell x = .ok c := by
  induction l generalizing l2 with
  | nil =>
    simp only [fixCells, Except.ok.injEq] at h
    subst h
    intro c hc
    simp at hc
  | cons c rest ih =>
    simp only [fixCells] at h
    split at h
    · simp at h
    next c2 hc2 =>
      split at h
      · simp at h
      next rest2 hrest2 =>
        simp only [Except.ok.injEq] at h
        subst h
        intro x hx
        rcases List.mem_cons.mp hx with h1 | h2
        · exact ⟨c, by rw [hc2, h1]⟩
        · exact ih _ hrest2 x h2

theorem isObj_addTopDefaults (nb : Json) : (addTopDefaults nb).isObj = nb.isObj := by
  unfold addTopDefaults
  rw [isObj_ensureKey, isObj_ensureKey, isObj_ensureKey]

theorem getKey_addTopDefaults_cells (nb : Json) :
    (addTopDefaults nb).getKey "cells" = nb.getKey "cells" := by
  unfold addTopDefaults
  rw [getKey_ensureKey_other _ _ _ _ (by decide), getKey_ensureKey_other _ _ _ _ (by decide),
    getKey_ensureKey_other _ _ _ _ (by decide)]

theorem hasKey_addTopDefaults_cells (nb : Json) :
    (addTopDefaults nb).hasKey "cells" = nb.hasKey "cells" := by
  simp [Json.hasKey, getKey_addTopDefaults_cells]

theorem addTopDefaults_hasKeys (nb : Json) (ho : nb.isObj = true) :
    (addTopDefaults nb).hasKey "metadata" = true ∧
    (addTopDefaults nb).hasKey "nbformat" = true ∧
    (addTopDefaults nb).hasKey "nbformat_minor" = true := by
  unfold addTopDefaults
  refine ⟨?_, ?_, ?_⟩
  · rw [hasKey_ensureKey_other _ _ _ _ (by decide), hasKey_ensureKey_other _ _ _ _ (by decide)]
    exact hasKey_ensureKey_self _ _ _ ho
  · rw [hasKey_ensureKey_other _ _ _ _ (by decide)]
    apply hasKey_ensureKey_self
    rw [isObj_ensureKey]
    exact ho
  · apply hasKey_ensureKey_self
    rw [isObj_ensureKey, isObj_ensureKey]
    exact ho

theorem addTopDefaults_of_has (j : Json)
    (h1 : j.hasKey "metadata" = true) (h2 : j.hasKey "nbformat" = true)
    (h3 : j.hasKey "nbformat_minor" = true) : addTopDefaults j = j := by
  unfold addTopDefaults
  rw [ensureKey_of_has _ _ _ h1, ensureKey_of_has _ _ _ h2, ensureKey_of_has _ _ _ h3]

theorem fixJson_ok_isObj (nb out : Json) (h : fixJson nb = .ok out) :
    nb.isObj = true ∧ out.isObj = true := by
  cases nb with
  | null => simp [fixJson] at h
  | bool b => simp [fixJson] at h
  | jnum n => simp [fixJson] at h
  | jfloat n => simp [fixJson] at h
  | str s =>
    simp only [fixJson] at h
    split at h <;> simp at h
  | arr xs =>
    simp only [fixJson] at h
    split at h <;> simp at h
  | obj kvs =>
    refine ⟨rfl, ?_⟩
    simp only [fixJson] at h
    split at h
    · simp at h
    next hck =>
      split at h
      next cs hcs =>
        split at h
        · simp at h
        next cs2 hcs2 =>
          simp only [Except.ok.injEq] at h
          subst h
          rw [isObj_setKey, isObj_addTopDefaults]
          rfl
      next hcs =>
        simp only [Except.ok.injEq] at h
        subst h
        rw [isObj_addTopDefaults]
        rfl
      next kvs2 hcs =>
        split at h
        · simp at h
        · simp only [Except.ok.injEq] at h
          subst h
          rw [isObj_addTopDefaults]
          rfl
      next => simp at h
      next => simp at h

theorem fixJson_ok_cases (nb out : Json) (h : fixJson nb = .ok out) :
    nb.hasKey "cells" = true ∧
    ((∃ cs cs2, (addTopDefaults nb).getKey "cells" = some (.arr cs) ∧
        fixCells cs = .ok cs2 ∧
        out = (addTopDefaults nb).setKey "cells" (.arr cs2)) ∨
      ((∃ s, (addTopDefaults nb).getKey "cells" = some (.str s)) ∧ out = addTopDefaults nb) ∨
      (∃ kvs2, (addTopDefaults nb).getKey "cells" = some (.obj kvs2) ∧
        (kvs2.any (fun kv => strContainsSub kv.1 "cell_type")) = false ∧
        out = addTopDefaults nb)) := by
  cases nb with
  | null => simp [fixJson] at h
  | bool b => simp [fixJson] at h
  | jnum n => simp [fixJson] at h
  | jfloat n => simp [fixJson] at h
  | str s =>
    simp only [fixJson] at h
    split at h <;> simp at h
  | arr xs =>
    simp only [fixJson] at h
    split at h <;> simp at h
  | obj kvs =>
    simp only [fixJson] at h
    split at h
    · simp at h
    next hck =>
      have hck2 : (Json.obj kvs).hasKey "cells" = true := by
        revert hck
        cases (Json.obj kvs).hasKey "cells" <;> simp
      refine ⟨hck2, ?_⟩
      split at h
      next cs hcs =>
        split at h
        · simp at h
        next cs2 hcs2 =>
          simp only [Except.ok.injEq] at h
          exact Or.inl ⟨cs, cs2, hcs, hcs2, h.symm⟩
      next s2 hcs =>
        simp only [Except.ok.injEq] at h
        exact Or.inr (Or.inl ⟨⟨s2, hcs⟩, h.symm⟩)
      next kvs2 hcs =>
        split at h
        · simp at h
        next hany =>
          simp only [Except.ok.injEq] at h
          refine Or.inr (Or.inr ⟨kvs2, hcs, ?_, h.symm⟩)
          revert hany
          cases (kvs2.any fun kv => strContainsSub kv.1 "cell_type") <;> simp
      next => simp at h
      next => simp at h

theorem fixJson_ok_getKey_top (nb out : Json) (h : fixJson nb = .ok out)
    (k : String) (hk : k ≠ "cells") :
    out.getKey k = (addTopDefaults nb).getKey k := by
  obtain ⟨-, hc⟩ := fixJson_ok_cases nb out h
  rcases hc with ⟨cs, cs2, hcs, hcs2, rfl⟩ | ⟨-, rfl⟩ | ⟨kvs2, hcs, hany, rfl⟩
  · exact getKey_setKey_other _ _ _ _ hk
  · rfl
  · rfl

theorem fixJson_ok_cells_arr (nb out : Json) (h : fixJson nb = .ok out)
    (cs2 : List Json) (hcells : out.getKey "cells" = some (.arr cs2)) :
    ∀ c ∈ cs2, ∃ x, fixCell x = .ok c := by
  obtain ⟨-, hc⟩ := fixJson_ok_cases nb out h
  have honb : nb.isObj = true := (fixJson_ok_isObj nb out h).1
  have hotop : (addTopDefaults nb).isObj = true := by
    rw [isObj_addTopDefaults]
    exact honb
  rcases hc with ⟨cs, cs2x, hcs, hcs2, rfl⟩ | ⟨⟨s, hs⟩, rfl⟩ | ⟨kvs2, hcs, hany, rfl⟩
  · rw [getKey_setKey_self _ _ _ hotop] at hcells
    simp only [Option.some.injEq, Json.arr.injEq] at hcells
    subst hcells
    exact fixCells_mem cs _ hcs2
  · rw [hs] at hcells
    simp at hcells
  · rw [hcs] at hcells
    simp at hcells

theorem fixJson_idem (nb out : Json) (h : fixJson nb = .ok out) :
    fixJson out = .ok out := by
  obtain ⟨honb, hoout⟩ := fixJson_ok_isObj nb out h
  obtain ⟨hck, hc⟩ := fixJson_ok_cases nb out h
  have hotop : (addTopDefaults nb).isObj = true := by
    rw [isObj_addTopDefaults]; exact honb
  obtain ⟨htm, htf, htfm⟩ := addTopDefaults_hasKeys nb honb
  rcases hc with ⟨cs, cs2, hcs, hcs2, rfl⟩ | ⟨⟨s, hs⟩, rfl⟩ | ⟨kvs2, hcs, hany, rfl⟩
  · -- out = (addTopDefaults nb).setKey "cells" (.arr cs2)
    have hget : ((addTopDefaults nb).setKey "cells" (.arr cs2)).getKey "cells" =
        some (.arr cs2) := getKey_setKey_self _ _ _ hotop
    have hdef : addTopDefaults ((addTopDefaults nb).setKey "cells" (.arr cs2)) =
        (addTopDefaults nb).setKey "cells" (.arr cs2) := by
      apply addTopDefaults_of_has
      · rw [hasKey_setKey_other _ _ _ _ (by decide)]; exact htm
      · rw [hasKey_setKey_other _ _ _ _ (by decide)]; exact htf
      · rw [hasKey_setKey_other _ _ _ _ (by decide)]; exact htfm
    obtain ⟨kvso, heq⟩ : ∃ kvso, (addTopDefaults nb).setKey "cells" (.arr cs2) = Json.obj kvso := by
      have := isObj_setKey (addTopDefaults nb) "cells" (.arr cs2)
      rw [hotop] at this
      revert this
      cases (addTopDefaults nb).setKey "cells" (.arr cs2) <;> simp [Json.isObj]
    rw [heq] at hget hdef ⊢
    simp only [fixJson]
    have hck2 : (Json.obj kvso).hasKey "cells" = true := by
      simp [Json.hasKey, hget]
    rw [hck2]
    simp only [Bool.true_eq_false, if_false, hdef, hget]
    rw [fixCells_idem cs cs2 hcs2]
    show Except.ok ((Json.obj kvso).setKey "cells" (Json.arr cs2)) = Except.ok (Json.obj kvso)
    rw [setKey_of_getKey_eq _ _ _ hget]
  · -- cells value is a string
    have hdef : addTopDefaults (addTopDefaults nb) = addTopDefaults nb :=
      addTopDefaults_of_has _ htm htf htfm
    obtain ⟨kvso, heq⟩ : ∃ kvso, addTopDefaults nb = Json.obj kvso := by
      revert hotop
      cases addTopDefaults nb <;> simp [Json.isObj]
    rw [heq] at hs hdef ⊢
    simp only [fixJson]
    have hck2 : (Json.obj kvso).hasKey "cells" = true := by
      simp [Json.hasKey, hs]
    rw [hck2]
    simp only [Bool.true_eq_false, if_false, hdef, hs]
  · -- cells value is a dict none of whose keys contains 'cell_type'
    have hdef : addTopDefaults (addTopDefaults nb) = addTopDefaults nb :=
      addTopDefaults_of_has _ htm htf htfm
    obtain ⟨kvso, heq⟩ : ∃ kvso, addTopDefaults nb = Json.obj kvso := by
      revert hotop
      cases addTopDefaults nb <;> simp [Json.isObj]
    rw [heq] at hcs hdef ⊢
    simp only [fixJson]
    have hck2 : (Json.obj kvso).hasKey "cells" = true := by
      simp [Json.hasKey, hcs]
    rw [hck2]
    simp only [Bool.true_eq_false, if_false, hdef, hcs, hany]
    simp

theorem splitLinesKeep_flatten (l : List Char) : (splitLinesKeep l).flatten = l := by
  induction l using splitLinesKeep.induct <;> rw [splitLinesKeep.eq_def] <;> simp_all

/-- C10: the string-to-line-sequence conversion (`splitlines(keepends=True)`,
fix_notebook.py line 53) preserves content: for every string, concatenating
the produced lines (with their kept line endings) yields the original
string again. -/
theorem source_lines_concat_id (s : String) :
    (splitLinesKeep s.toList).flatten = s.toList :=
  splitLinesKeep_flatten s.toList

/-- C1 counterexample: on the notebook `{"cells": [{}]}` the fix succeeds,
yet the (unchanged) cell of the output has neither a `source` nor a
`metadata` key, because a cell without `cell_type` is skipped by the
`continue` at fix_notebook.py line 47. -/
theorem fix_skips_cell_missing_cell_type :
    fixJson (.obj [("cells", .arr [.obj []])]) =
      .ok (.obj [("cells", .arr [.obj []]), ("metadata", .obj []),
        ("nbformat", .jnum 4), ("nbformat_minor", .jnum 4)]) ∧
    (Json.obj []).hasKey "source" = false ∧
    (Json.obj []).hasKey "metadata" = false :=
  ⟨rfl, rfl, rfl⟩

/-- C1 (amended): for every notebook on which `fix_notebook_encoding`
succeeds, every cell of the resulting cells list that has a `cell_type`
key has a `source` key (whose value is never a bare string) and a
`metadata` key, and when its `cell_type` is `'code'` it also has
`outputs` and `execution_count`; cells lacking `cell_type` are skipped
unchanged. -/
theorem fix_ensures_cell_fields (nb out : Json) (cs : List Json) (c : Json)
    (h : fixJson nb = .ok out) (hcells : out.getKey "cells" = some (.arr cs))
    (hc : c ∈ cs) (hct : c.hasKey "cell_type" = true) :
    c.hasKey "source" = true ∧ c.hasKey "metadata" = true ∧
    (∀ s, c.getKey "source" ≠ some (.str s)) ∧
    (c.getKey "cell_type" = some (.str "code") →
      c.hasKey "outputs" = true ∧ c.hasKey "execution_count" = true) := by
  obtain ⟨x, hx⟩ := fixJson_ok_cells_arr nb out h cs hcells c hc
  exact fixCell_ok_post x c hx hct

/-- C1 witness: the amended theorem applied to the concrete notebook
`{"cells": [{"cell_type": "code"}]}`. -/
theorem fix_ensures_cell_fields_app :
    (Json.obj [("cell_type", Json.str "code"), ("source", Json.arr []),
      ("metadata", Json.obj []), ("outputs", Json.arr []),
      ("execution_count", Json.null)]).hasKey "source" = true ∧
    (Json.obj [("cell_type", Json.str "code"), ("source", Json.arr []),
      ("metadata", Json.obj []), ("outputs", Json.arr []),
      ("execution_count", Json.null)]).hasKey "metadata" = true ∧
    (∀ s, (Json.obj [("cell_type", Json.str "code"), ("source", Json.arr []),
      ("metadata", Json.obj []), ("outputs", Json.arr []),
      ("execution_count", Json.null)]).getKey "source" ≠ some (.str s)) ∧
    ((Json.obj [("cell_type", Json.str "code"), ("source", Json.arr []),
      ("metadata", Json.obj []), ("outputs", Json.arr []),
      ("execution_count", Json.null)]).getKey "cell_type" = some (.str "code") →
      (Json.obj [("cell_type", Json.str "code"), ("source", Json.arr []),
        ("metadata", Json.obj []), ("outputs", Json.arr []),
        ("execution_count", Json.null)]).hasKey "outputs" = true ∧
      (Json.obj [("cell_type", Json.str "code"), ("source", Json.arr []),
        ("metadata", Json.obj []), ("outputs", Json.arr []),
        ("execution_count", Json.null)]).hasKey "execution_count" = true) :=
  fix_ensures_cell_fields
    (Json.obj [("cells", Json.arr [Json.obj [("cell_type", Json.str "code")]])])
    (Json.obj [("cells", Json.arr [Json.obj [("cell_type", Json.str "code"),
      ("source", Json.arr []), ("metadata", Json.obj []), ("outputs", Json.arr []),
      ("execution_count", Json.null)]]), ("metadata", Json.obj []),
      ("nbformat", Json.jnum 4), ("nbformat_minor", Json.jnum 4)])
    [Json.obj [("cell_type", Json.str "code"), ("source", Json.arr []),
      ("metadata", Json.obj []), ("outputs", Json.arr []),
      ("execution_count", Json.null)]]
    (Json.obj [("cell_type", Json.str "code"), ("source", Json.arr []),
      ("metadata", Json.obj []), ("outputs", Json.arr []),
      ("execution_count", Json.null)])
    rfl rfl (List.mem_singleton.mpr rfl) rfl

/-- The example notebook `{"cells": [{"cell_type": "code", "source": "x=1"}]}`
from the specification. -/
def exNb : Json :=
  .obj [("cells", .arr [.obj [("cell_type", .str "code"), ("source", .str "x=1")]])]

/-- What `fix_notebook_encoding` turns `exNb` into. -/
def exOut : Json :=
  .obj [("cells", .arr [.obj [("cell_type", .str "code"),
    ("source", .arr [.str "x=1"]), ("metadata", .obj []),
    ("outputs", .arr []), ("execution_count", .null)]]),
    ("metadata", .obj []), ("nbformat", .jnum 4), ("nbformat_minor", .jnum 4)]

/-- C2: `fix_notebook_encoding` is idempotent.  If a run on a parsed
document succeeds (rewriting the file with the serialisation of `out`), a
second run on the resulting document succeeds and writes byte-for-byte the
same file content. -/
theorem fix_idempotent_runs (nb out : Json) (orig orig2 : String)
    (h : fixJson nb = .ok out) :
    runFixScript (.parsedDoc nb) orig = (.fixedOk, dumpJson 0 out) ∧
    runFixScript (.parsedDoc out) orig2 = (.fixedOk, dumpJson 0 out) := by
  constructor
  · simp only [runFixScript, h]
  · simp only [runFixScript, fixJson_idem nb out h]

/-- C2 witness: both runs on the example notebook write the same content. -/
theorem fix_idempotent_runs_app :
    runFixScript (.parsedDoc exNb) "before" = (.fixedOk, dumpJson 0 exOut) ∧
    runFixScript (.parsedDoc exOut) "between" = (.fixedOk, dumpJson 0 exOut) :=
  fix_idempotent_runs exNb exOut "before" "between" rfl

/-- C3: fixing `{"cells": [{"cell_type": "code", "source": "x=1"}]}` yields a
cell with `source: ["x=1"]`, `outputs: []`, `execution_count: null` and
top-level `metadata: {}`, `nbformat: 4`, `nbformat_minor: 4`; in general a
missing top-level `metadata`/`nbformat`/`nbformat_minor` is filled with
`{}`/`4`/`4`, and the string source `"a\nb"` becomes `["a\n", "b"]`. -/
theorem fix_fills_defaults :
    fixJson exNb = .ok exOut ∧
    (∀ nb out, fixJson nb = .ok out →
      ((nb.hasKey "metadata" = false → out.getKey "metadata" = some (.obj [])) ∧
       (nb.hasKey "nbformat" = false → out.getKey "nbformat" = some (.jnum 4)) ∧
       (nb.hasKey "nbformat_minor" = false →
         out.getKey "nbformat_minor" = some (.jnum 4)))) ∧
    pyLines "a\nb" = [.str "a\n", .str "b"] := by
  refine ⟨rfl, ?_, rfl⟩
  intro nb out h
  have honb : nb.isObj = true := (fixJson_ok_isObj nb out h).1
  have h1 : nb.isObj = true → (ensureKey nb "metadata" (Json.obj [])).isObj = true := by
    intro hx
    rw [isObj_ensureKey]
    exact hx
  refine ⟨?_, ?_, ?_⟩
  · intro hm
    rw [fixJson_ok_getKey_top nb out h "metadata" (by decide)]
    unfold addTopDefaults
    rw [getKey_ensureKey_other _ _ _ _ (by decide), getKey_ensureKey_other _ _ _ _ (by decide)]
    exact getKey_ensureKey_of_not nb "metadata" (Json.obj []) hm honb
  · intro hf
    rw [fixJson_ok_getKey_top nb out h "nbformat" (by decide)]
    unfold addTopDefaults
    rw [getKey_ensureKey_other _ _ _ _ (by decide)]
    apply getKey_ensureKey_of_not
    · rw [hasKey_ensureKey_other _ _ _ _ (by decide)]
      exact hf
    · exact h1 honb
  · intro hfm
    rw [fixJson_ok_getKey_top nb out h "nbformat_minor" (by decide)]
    unfold addTopDefaults
    apply getKey_ensureKey_of_not
    · rw [hasKey_ensureKey_other _ _ _ _ (by decide),
        hasKey_ensureKey_other _ _ _ _ (by decide)]
      exact hfm
    · rw [isObj_ensureKey]
      exact h1 honb

/-- C3 witness: the general default-filling part applied to the concrete
notebook `{"cells": []}`. -/
theorem fix_fills_defaults_app :
    (Json.obj [("cells", Json.arr []), ("metadata", Json.obj []),
      ("nbformat", Json.jnum 4), ("nbformat_minor", Json.jnum 4)]).getKey
        "metadata" = some (Json.obj []) :=
  (fix_fills_defaults.2.1 (Json.obj [("cells", Json.arr [])])
    (Json.obj [("cells", Json.arr []), ("metadata", Json.obj []),
      ("nbformat", Json.jnum 4), ("nbformat_minor", Json.jnum 4)]) rfl).1 rfl

/-- C9: `fix_notebook_encoding` is atomic on failure: whenever it reports
failure (returns `False`), the notebook file content is unchanged, because
the rewrite at fix_notebook.py lines 66-67 is only reached after the whole
transformation has succeeded. -/
theorem fix_atomic_on_failure (r : ReadResult) (orig : String)
    (h : (runFixScript r orig).1.toBool = false) :
    (runFixScript r orig).2 = orig := by
  cases r with
  | unicodeFail => rfl
  | notJson => rfl
  | parsedDoc nb =>
    cases hf : fixJson nb with
    | error e => cases e <;> simp [runFixScript, hf]
    | ok out =>
      exfalso
      simp [runFixScript, hf, FixOutcome.toBool] at h

/-- C9 witness: a run that fails on invalid JSON leaves the file content
untouched. -/
theorem fix_atomic_on_failure_app :
    (runFixScript ReadResult.notJson "original content").2 = "original content" :=
  fix_atomic_on_failure ReadResult.notJson "original content" rfl

/-- C5: the CLI exits 0 when the file is there and validation, fix and
re-validation all succeed (the backup result is not consulted); it exits 1
on any validation or fix failure; and within the fix, the JSON-decode,
unicode-decode and generic exception handlers are three distinct reported
outcomes, each of which makes `main` exit 1. -/
theorem cli_exit_codes :
    (∀ b : Bool, mainExitCode true b true .fixedOk true = 0) ∧
    (∀ (e b : Bool) (fx : FixOutcome) (v2 : Bool), mainExitCode e b false fx v2 = 1) ∧
    (∀ (e b v1 : Bool) (fx : FixOutcome) (v2 : Bool),
      fx.toBool = false → mainExitCode e b v1 fx v2 = 1) ∧
    (∀ (e b v1 : Bool) (fx : FixOutcome), mainExitCode e b v1 fx false = 1) ∧
    (runFixScript .notJson "").1 = .failedJsonDecode ∧
    (runFixScript .unicodeFail "").1 = .failedUnicodeDecode ∧
    (∀ nb orig, fixJson nb = .error .typeError →
      (runFixScript (.parsedDoc nb) orig).1 = .failedOther) ∧
    ([FixOutcome.failedJsonDecode, .failedUnicodeDecode, .failedOther].Pairwise (· ≠ ·)) ∧
    (∀ fx : FixOutcome, fx ≠ .fixedOk → fx.toBool = false) := by
  refine ⟨?_, ?_, ?_, ?_, rfl, rfl, ?_, ?_, ?_⟩
  · intro b
    rfl
  · intro e b fx v2
    cases e <;> rfl
  · intro e b v1 fx v2 hfx
    cases fx with
    | fixedOk => simp [FixOutcome.toBool] at hfx
    | failedMissingCells => cases e <;> cases v1 <;> rfl
    | failedJsonDecode => cases e <;> cases v1 <;> rfl
    | failedUnicodeDecode => cases e <;> cases v1 <;> rfl
    | failedOther => cases e <;> cases v1 <;> rfl
  · intro e b v1 fx
    cases e <;> cases v1 <;> cases fx <;> rfl
  · intro nb orig hnb
    simp [runFixScript, hnb]
  · decide
  · intro fx h
    cases fx with
    | fixedOk => exact absurd rfl h
    | failedMissingCells => rfl
    | failedJsonDecode => rfl
    | failedUnicodeDecode => rfl
    | failedOther => rfl

/-- C5 witness: a fix that failed with the JSON-decode handler makes the
script exit 1. -/
theorem cli_exit_codes_app :
    mainExitCode true true true .failedJsonDecode true = 1 :=
  cli_exit_codes.2.2.1 true true true .failedJsonDecode true rfl

/-- C6 counterexample: the Summarize action calls `research` and displays
the result but never touches `st.session_state.research_history` — the
history after the action is unchanged (here: still empty), so the result
was not appended. -/
theorem summarize_does_not_append :
    summarizeButton [] "t" "Brief" (fun _ => .ok (.obj [])) = .ok ([], .obj []) :=
  rfl

/-- C6 (amended): only the Research action appends to the session history;
it appends exactly one entry `{topic, timestamp, result, cost:
result.get('cost', 0)}` at the end, keeping all previous entries (the list
is append-only).  The Summarize, Recommendations and Trends actions leave
the history unchanged.  The sidebar displays the most recent five
entries. -/
theorem history_append_only :
    (∀ (h : List HistoryEntry) (q ts : String) (kvs : List (String × Json)),
      researchButton h q ts (.ok (.obj kvs)) =
        .ok (h ++ [⟨q, ts, .obj kvs, (lookupKey kvs "cost").getD (.jnum 0)⟩])) ∧
    (∀ (h : List HistoryEntry) (q ts : String) (r : Json) (h2 : List HistoryEntry),
      researchButton h q ts (.ok r) = .ok h2 →
        h <+: h2 ∧ h2.length = h.length + 1) ∧
    (∀ (h : List HistoryEntry) (t s : String) (f : String → Except String Json)
      (res : List HistoryEntry × Json),
      summarizeButton h t s f = .ok res → res.1 = h) ∧
    (∀ (h : List HistoryEntry) (t : String) (f : String → Except String Json)
      (res : List HistoryEntry × Json),
      recommendButton h t f = .ok res → res.1 = h) ∧
    (∀ (h : List HistoryEntry) (t : String) (f : String → Except String Json)
      (res : List HistoryEntry × Json),
      trendsButton h t f = .ok res → res.1 = h) ∧
    (∀ h : List HistoryEntry,
      displayedHistory h <:+ h ∧ (displayedHistory h).length = min 5 h.length) := by
  refine ⟨?_, ?_, ?_, ?_, ?_, ?_⟩
  · intro h q ts kvs
    rfl
  · intro h q ts r h2 hr
    cases r <;> simp only [researchButton] at hr
    case obj kvs =>
      simp only [Except.ok.injEq] at hr
      subst hr
      exact ⟨List.prefix_append _ _, by simp⟩
    all_goals simp at hr
  · intro h t s f res hr
    unfold summarizeButton at hr
    split at hr
    · simp at hr
    · simp only [Except.ok.injEq] at hr
      rw [← hr]
  · intro h t f res hr
    unfold recommendButton at hr
    split at hr
    · simp at hr
    · simp only [Except.ok.injEq] at hr
      rw [← hr]
  · intro h t f res hr
    unfold trendsButton at hr
    split at hr
    · simp at hr
    · simp only [Except.ok.injEq] at hr
      rw [← hr]
  · intro h
    refine ⟨List.drop_suffix _ _, ?_⟩
    simp only [displayedHistory, List.length_drop]
    omega

/-- C6 witness: the amended theorem applied to a concrete Research click
(appending to an empty history) and a concrete Summarize click (leaving a
one-entry history unchanged). -/
theorem history_append_only_app :
    ([] : List HistoryEntry) <+:
      [(⟨"q", "ts", Json.obj [("cost", Json.jfloat 0)], Json.jfloat 0⟩ : HistoryEntry)] ∧
    (([(⟨"old", "t0", Json.obj [], Json.jnum 0⟩ : HistoryEntry)],
      Json.obj []) : List HistoryEntry × Json).1 =
      [(⟨"old", "t0", Json.obj [], Json.jnum 0⟩ : HistoryEntry)] := by
  constructor
  · exact (history_append_only.2.1 [] "q" "ts" (Json.obj [("cost", Json.jfloat 0)])
      [⟨"q", "ts", Json.obj [("cost", Json.jfloat 0)], Json.jfloat 0⟩] rfl).1
  · exact history_append_only.2.2.1 [⟨"old", "t0", Json.obj [], Json.jnum 0⟩]
      "topic" "Brief" (fun _ => .ok (.obj []))
      ([⟨"old", "t0", Json.obj [], Json.jnum 0⟩], Json.obj []) rfl

/-- C7 counterexample: the import-fallback stub's research result has no
`timestamp` key, so the UI's `result['timestamp']` read
(research_app.py line 186) raises `KeyError` for stub results. -/
theorem stub_missing_timestamp :
    (ResearchAssistant.research ⟨"key"⟩ "q" true).hasKey "timestamp" = false ∧
    pyGetItem (ResearchAssistant.research ⟨"key"⟩ "q" true) "timestamp" =
      .error .keyError :=
  ⟨rfl, rfl⟩

/-- C7 (amended): every result of the stub assistant's `research` contains
`query` (the query), `findings`, `sources` (an empty string list), `cost`
(the float `0.0`) and `tokens_used` (the int `0`) — but no `timestamp`
key, so the UI's `result['timestamp']` display is NOT well-defined for
stub results. -/
theorem stub_result_fields (a : ResearchAssistant) (q : String) (ia : Bool) :
    (a.research q ia).getKey "query" = some (.str q) ∧
    (a.research q ia).getKey "findings" =
      some (.str "Research functionality not available - please run the notebook first") ∧
    (a.research q ia).getKey "sources" = some (.arr []) ∧
    (a.research q ia).getKey "cost" = some (.jfloat 0) ∧
    (a.research q ia).getKey "tokens_used" = some (.jnum 0) ∧
    (a.research q ia).hasKey "timestamp" = false :=
  ⟨rfl, rfl, rfl, rfl, rfl, rfl⟩

/-- C8 counterexample: an exception raised by `assistant.research` inside
the Research button handler is not caught there — it propagates out of the
handler instead of being surfaced as a user-visible message. -/
theorem research_error_propagates :
    researchButton [] "q" "ts" (.error "boom") = .error "boom" :=
  rfl

/-- C8 (amended): only assistant initialisation wraps its external call in
`try`/`except` (surfacing `st.error("Failed to initialize assistant: ...")`);
the `research` calls of all four tabs and the `doc_processor` call of the
Documents tab are unguarded, so their exceptions propagate out of the
handler. -/
theorem error_handling_catches_only_init :
    (∀ e : String, initSessionAssistant (A := Unit) (.error e) =
      .errorShown ("Failed to initialize assistant: " ++ e)) ∧
    (∀ (h : List HistoryEntry) (q ts e : String),
      researchButton h q ts (.error e) = .error e) ∧
    (∀ (h : List HistoryEntry) (t s e : String),
      summarizeButton h t s (fun _ => .error e) = .error e) ∧
    (∀ (h : List HistoryEntry) (t e : String),
      recommendButton h t (fun _ => .error e) = .error e) ∧
    (∀ (h : List HistoryEntry) (t e : String),
      trendsButton h t (fun _ => .error e) = .error e) ∧
    (∀ u e : String, addFromUrlButton u (fun _ => .error e) = .error e) :=
  ⟨fun _ => rfl, fun _ _ _ _ => rfl, fun _ _ _ _ => rfl, fun _ _ _ => rfl,
    fun _ _ _ => rfl, fun _ _ => rfl⟩

/-- The cell type used by the counting loop: `cell.get('cell_type',
'unknown')` for a dict cell. -/
def cellTypeD (c : Json) : Json :=
  match c with
  | .obj kvs => (lookupKey kvs "cell_type").getD (.str "unknown")
  | _ => .str "unknown"

/-- A cell on which the counting loop is well-behaved: a dict whose
`cell_type`, if present, is a string. -/
def goodCell (c : Json) : Bool :=
  match c with
  | .obj kvs =>
    match lookupKey kvs "cell_type" with
    | none => true
    | some (.str _) => true
    | some _ => false
  | _ => false

theorem goodCell_elim (c : Json) (h : goodCell c = true) :
    (∃ kvs, c = .obj kvs) ∧ ∃ u : String, cellTypeD c = .str u := by
  cases c <;> simp [goodCell] at h
  case obj kvs =>
  refine ⟨⟨kvs, rfl⟩, ?_⟩
  simp only [cellTypeD]
  cases hl : lookupKey kvs "cell_type" with
  | none => exact ⟨"unknown", rfl⟩
  | some v =>
    rw [hl] at h
    cases v with
    | str s => exact ⟨s, rfl⟩
    | null => simp at h
    | bool b => simp at h
    | jnum n => simp at h
    | jfloat n => simp at h
    | arr xs => simp at h
    | obj kvs2 => simp at h
theorem pyEq_str_right (k : Json) (s : String) (h : pyEq k (.str s) = true) :
    k = .str s := by
  cases k <;> simp [pyEq] at h ⊢
  exact h

theorem countLookup_bumpCount_str (acc : List (Json × Nat)) (s t : String) :
    countLookup (bumpCount acc (.str s)) (.str t) =
      countLookup acc (.str t) + (if s = t then 1 else 0) := by
  induction acc with
  | nil =>
    by_cases hst : s = t
    · subst hst
      simp [bumpCount, countLookup, pyEq]
    · simp [bumpCount, countLookup, pyEq, hst]
  | cons p rest ih =>
    obtain ⟨k, n⟩ := p
    by_cases hks : pyEq k (.str s) = true
    · have hk : k = .str s := pyEq_str_right k s hks
      subst hk
      by_cases hst : s = t
      · subst hst
        simp [bumpCount, countLookup, pyEq]
      · simp [bumpCount, countLookup, pyEq, hst]
    · have hks2 : pyEq k (.str s) = false := by
        revert hks
        cases pyEq k (.str s) <;> simp
      by_cases hkt : pyEq k (.str t) = true
      · have hk : k = .str t := pyEq_str_right k t hkt
        subst hk
        have hts : ¬(s = t) := by
          intro hc
          subst hc
          simp [pyEq] at hks2
        simp [bumpCount, countLookup, pyEq, hks2, hts, Ne.symm hts]
      · have hkt2 : pyEq k (.str t) = false := by
          revert hkt
          cases pyEq k (.str t) <;> simp
        simp [bumpCount, countLookup, hks2, hkt2, ih]

theorem countCells_spec (cs : List Json) (acc : List (Json × Nat))
    (hgood : ∀ c ∈ cs, goodCell c = true) :
    ∃ counts, countCells cs acc = .ok counts ∧
      ∀ t : String, countLookup counts (.str t) =
        countLookup acc (.str t) +
          cs.countP (fun c =>
            match cellTypeD c with | .str u => u = t | _ => false) := by
  induction cs generalizing acc with
  | nil => exact ⟨acc, rfl, fun t => by simp⟩
  | cons c rest ih =>
    obtain ⟨⟨kvs, rfl⟩, u, hu⟩ := goodCell_elim c (hgood c (List.mem_cons_self c rest))
    have hu2 : (lookupKey kvs "cell_type").getD (.str "unknown") = .str u := by
      simpa only [cellTypeD] using hu
    have hstep : countCells (Json.obj kvs :: rest) acc =
        countCells rest (bumpCount acc (.str u)) := by
      show (match pyDictGet (Json.obj kvs) "cell_type" (.str "unknown") with
        | .error e => .error e
        | .ok t => if pyHashable t = false then .error .typeError
            else countCells rest (bumpCount acc t)) =
        countCells rest (bumpCount acc (.str u))
      have hpg : pyDictGet (Json.obj kvs) "cell_type" (.str "unknown") =
          .ok (.str u) := by
        simp only [pyDictGet]
        rw [hu2]
      rw [hpg]
      rfl
    obtain ⟨counts, hc, hcount⟩ := ih (bumpCount acc (.str u))
      (fun x hx => hgood x (List.mem_cons_of_mem _ hx))
    refine ⟨counts, by rw [hstep]; exact hc, fun t => ?_⟩
    rw [hcount t, countLookup_bumpCount_str, List.countP_cons]
    have hctd : cellTypeD (Json.obj kvs) = .str u := hu
    simp only [hctd]
    by_cases hut : u = t <;> simp [hut] <;> omega

/-- C4 counterexample: `validate_notebook` can fail even though the file is
present, non-empty, valid JSON and has a `cells` key — on
`{"cells": 0}` the `len(cells)` call raises `TypeError`, which the generic
`except` turns into a failure (fix_notebook.py lines 111, 125-127). -/
theorem validate_fails_with_cells_key :
    (validateNotebook ⟨true, 12, .ok (.obj [("cells", .jnum 0)])⟩).1 = false ∧
    (NotebookFile.mk true 12 (.ok (.obj [("cells", .jnum 0)]))).present = true ∧
    (NotebookFile.mk true 12 (.ok (.obj [("cells", .jnum 0)]))).size ≠ 0 ∧
    (Json.obj [("cells", .jnum 0)]).hasKey "cells" = true :=
  ⟨rfl, rfl, by decide, rfl⟩

/-- C4 (amended): `validate_notebook` returns failure when the file is
missing, is zero bytes, is not valid JSON, or the document has no `cells`
key (Python membership); it additionally fails when the `cells` value
cannot be iterated as dict cells with hashable cell types.  When the
document is an object whose `cells` value is a list of objects whose
`cell_type` values (when present) are strings, it returns success and
reports, for every type, the number of cells of that type, counting cells
without a `cell_type` as `'unknown'`. -/
theorem validate_characterization :
    (∀ f : NotebookFile, f.present = false → (validateNotebook f).1 = false) ∧
    (∀ f : NotebookFile, f.size = 0 → (validateNotebook f).1 = false) ∧
    (∀ f : NotebookFile, f.parsed = .error () → (validateNotebook f).1 = false) ∧
    (∀ (f : NotebookFile) (doc : Json), f.parsed = .ok doc →
      pyIn "cells" doc = .ok false → (validateNotebook f).1 = false) ∧
    (∀ (f : NotebookFile) (doc : Json) (cs : List Json),
      f.present = true → f.size ≠ 0 → f.parsed = .ok doc →
      doc.getKey "cells" = some (.arr cs) →
      (∀ c ∈ cs, goodCell c = true) →
      (validateNotebook f).1 = true ∧
      ∀ t : String, countLookup (validateNotebook f).2 (.str t) =
        cs.countP (fun c =>
          match cellTypeD c with | .str u => u = t | _ => false)) := by
  refine ⟨?_, ?_, ?_, ?_, ?_⟩
  · intro f h
    simp [validateNotebook, h]
  · intro f h
    unfold validateNotebook
    rw [h]
    split
    · rfl
    · rfl
  · intro f h
    unfold validateNotebook
    rw [h]
    split
    · rfl
    · split
      · rfl
      · rfl
  · intro f doc hp hin
    unfold validateNotebook
    simp only [hp, hin]
    split
    · rfl
    · split
      · rfl
      · rfl
  · intro f doc cs hpres hsize hp hcells hgood
    obtain ⟨kvsd, rfl⟩ : ∃ kvsd, doc = Json.obj kvsd := by
      cases doc <;> simp [Json.getKey] at hcells ⊢
    have hlook : lookupKey kvsd "cells" = some (.arr cs) := hcells
    have hin : pyIn "cells" (Json.obj kvsd) = .ok true := by
      simp [pyIn, Json.hasKey, Json.getKey, hlook]
    have hgi : pyGetItem (Json.obj kvsd) "cells" = .ok (.arr cs) := by
      simp [pyGetItem, hlook]
    obtain ⟨counts, hcnt, hspec⟩ := countCells_spec cs [] hgood
    have hval : validateNotebook f = (true, counts) := by
      simp [validateNotebook, hpres, hsize, hp, hin, hgi, pyLen, pyIter, hcnt]
    rw [hval]
    exact ⟨rfl, fun t => by simpa [countLookup] using hspec t⟩

/-- C4 witness: the success part applied to a file holding
`{"cells": [{"cell_type": "code"}, {}]}`: validation succeeds and one cell
is counted as `'unknown'`. -/
theorem validate_characterization_app :
    (validateNotebook ⟨true, 50,
      .ok (.obj [("cells", .arr [.obj [("cell_type", .str "code")], .obj []])])⟩).1
      = true ∧
    countLookup (validateNotebook ⟨true, 50,
      .ok (.obj [("cells", .arr [.obj [("cell_type", .str "code")], .obj []])])⟩).2
      (.str "unknown") = 1 := by
  have h := validate_characterization.2.2.2.2
    ⟨true, 50, .ok (.obj [("cells", .arr [.obj [("cell_type", .str "code")], .obj []])])⟩
    (.obj [("cells", .arr [.obj [("cell_type", .str "code")], .obj []])])
    [.obj [("cell_type", .str "code")], .obj []]
    rfl (by decide) rfl rfl (by decide)
  refine ⟨h.1, ?_⟩
  rw [h.2 "unknown"]
  decide
